import Mathlib

/-!
Verification development for the Talent Sift Lite frontend
(submission view in src/src/App.jsx, results view in src/unnamed/part_000).

The JavaScript source is shallowly embedded: pure computations become Lean
functions, browser local storage becomes an explicit record of typed slots,
the single fetch call becomes a parameter describing its outcome, and the
DOM tree produced by the browser from an HTML string becomes an explicit
tree value (parsing itself is outside the embedded code).
-/

namespace TalentSift

open scoped List

/-! ### DOM model for stripHtml (App.jsx lines 63-74)

A DOM forest in first-order sibling encoding: `nil` is the empty forest,
`text s rest` is a text node followed by its siblings, `elem tag children
rest` is an element node followed by its siblings.  `stripHtml` receives
the forest the browser parser builds from the raw HTML string assigned to
`div.innerHTML`. -/

inductive Node : Type where
  | nil : Node
  | text : String → Node → Node
  | elem : String → Node → Node → Node
deriving DecidableEq, Repr

/-- JavaScript `String.prototype.trim`: drop whitespace from both ends.
Written over the character list so that it evaluates inside the kernel. -/
def jsTrim (s : String) : String :=
  ⟨((s.data.dropWhile Char.isWhitespace).reverse.dropWhile Char.isWhitespace).reverse⟩

/-- JavaScript `String.prototype.toLowerCase`, character by character. -/
def jsToLower (s : String) : String :=
  ⟨s.data.map Char.toLower⟩

/-- JavaScript `String.prototype.split(',')` on the character list: an
empty string yields the one-element list containing the empty group, and
adjacent separators yield empty groups. -/
def splitCommaList : List Char → List (List Char)
  | [] => [[]]
  | c :: cs =>
      match splitCommaList cs with
      | [] => if c = ',' then [[], []] else [[c]]
      | g :: gs => if c = ',' then [] :: g :: gs else (c :: g) :: gs

/-- `formData.requiredSkills.split(",")` as a function on strings. -/
def splitComma (s : String) : List String :=
  (splitCommaList s.data).map fun l => ⟨l⟩

/-- Tags treated as block-level by stripHtml: `['p', 'div', 'br', 'li']`. -/
def blockTags : List String := ["p", "div", "br", "li"]

/-- Append a forest at the end of a sibling list (appendChild places the new
node after all existing children). -/
def appendNode : Node → Node → Node
  | .nil, m => m
  | .text s r, m => .text s (appendNode r m)
  | .elem t c r, m => .elem t c (appendNode r m)

/-- The mutation loop of stripHtml: for every element whose tag is in
`blockTags`, `el.appendChild(document.createTextNode(' '))` adds a single
space text node after its existing children.  `getElementsByTagName`
searches the whole subtree, so the rewrite applies at every depth. -/
def addSpaces : Node → Node
  | .nil => .nil
  | .text s rest => .text s (addSpaces rest)
  | .elem t cs rest =>
      .elem t
        (if t ∈ blockTags then appendNode (addSpaces cs) (.text " " .nil)
         else addSpaces cs)
        (addSpaces rest)

/-- `div.textContent`: concatenation of all text nodes in tree order. -/
def textContent : Node → String
  | .nil => ""
  | .text s rest => s ++ textContent rest
  | .elem _ cs rest => textContent cs ++ textContent rest

/-- `stripHtml` (App.jsx lines 63-74) on the parsed DOM forest: mutate the
tree by appending a space inside each block element, then return the
trimmed text content.  (`div.textContent || div.innerText || ''` collapses
to the text content: when textContent is the empty string the fallbacks
also produce the empty string, and trim of empty is empty.) -/
def stripHtml (dom : Node) : String :=
  jsTrim (textContent (addSpaces dom))

/-! ### Upstream candidate items and the results-view mapping
(part_000 lines 38-52)

Fields of an upstream JSON item are optional; for `experience` the code
distinguishes numbers from other values with a typeof check, so that field
keeps a separate sum type. -/

inductive ExpVal : Type where
  | num : Int → ExpVal
  | str : String → ExpVal
  | missing : ExpVal
deriving DecidableEq, Repr

structure UpstreamItem : Type where
  name : Option String
  score : Option Int
  justification : Option String
  experience : ExpVal
  email : Option String
  phone : Option String
deriving DecidableEq, Repr

/-- JavaScript `v || d` for an optional string field: missing, null and the
empty string are falsy and yield the default. -/
def jsOrStr (v : Option String) (d : String) : String :=
  match v with
  | some s => if s = "" then d else s
  | none => d

/-- JavaScript `v || d` for an optional numeric field: missing, null and 0
are falsy and yield the default. -/
def jsOrNum (v : Option Int) (d : Int) : Int :=
  match v with
  | some n => if n = 0 then d else n
  | none => d

/-- The display-shaped candidate built by the results view. -/
structure Candidate : Type where
  orgId : Option Int
  exeName : Option String
  candidateId : Nat
  name : String
  Rank : Int
  justification : String
  experience : Int
  email : String
  phone : String
deriving DecidableEq, Repr

/-- The element mapping of part_000 lines 39-52: one upstream item at
0-based position `index` becomes a display candidate, each field defaulted
exactly as in the source. -/
def mapResumeItem (oid : Option Int) (exeName : Option String)
    (index : Nat) (item : UpstreamItem) : Candidate :=
  { orgId := oid
    exeName := exeName
    candidateId := index + 1
    name := jsOrStr item.name ("Candidate " ++ toString (index + 1))
    Rank := jsOrNum item.score 0
    justification := jsOrStr item.justification ""
    experience := match item.experience with
      | .num n => n
      | _ => 0
    email := match item.email with
      | some e => if e = "xxx" ∨ e = "" then "No email" else e
      | none => "No email"
    phone := match item.phone with
      | some p => if p = "xxx" ∨ p = "" then "No phone" else p
      | none => "No phone" }

/-- `Array.prototype.map` with the index argument, starting at `i`. -/
def mapWithIndex {α β : Type} (f : Nat → α → β) : Nat → List α → List β
  | _, [] => []
  | i, a :: as => f i a :: mapWithIndex f (i + 1) as

/-! ### The local-storage slot "resumeResults"

`JSON.parse` of the stored string yields either a bare JSON array (what
App.jsx line 131 writes: `result.data?.result || []`) or an object; the
results view reads the `id`, `exe_name` and `result` properties of the
parsed value.  A bare array has none of those own properties, so property
access on it yields undefined. -/

inductive StoredResults : Type where
  | jarr : List UpstreamItem → StoredResults
  | jobj : Option Int → Option String → Option (List UpstreamItem) → StoredResults
deriving DecidableEq, Repr

/-- `parsedResumes.result`: undefined on an array, the `result` field on an
object. -/
def resultField : StoredResults → Option (List UpstreamItem)
  | .jarr _ => none
  | .jobj _ _ r => r

/-- `parsedResumes.id`: undefined on an array. -/
def idField : StoredResults → Option Int
  | .jarr _ => none
  | .jobj i _ _ => i

/-- `parsedResumes.exe_name`: undefined on an array. -/
def exeNameField : StoredResults → Option String
  | .jarr _ => none
  | .jobj _ e _ => e

/-- The load effect of part_000 lines 29-60: when the parsed stored value
has an array-valued `result` property, map it element-wise into display
shape; otherwise the resume state keeps its initial value `[]`. -/
def loadResumes (v : Option StoredResults) : List Candidate :=
  match v with
  | none => []
  | some sr =>
      match resultField sr with
      | some items => mapWithIndex (mapResumeItem (idField sr) (exeNameField sr)) 0 items
      | none => []

/-! ### Submission view (App.jsx)

Form state as held by App.  The raw jobDescription string (used by the
validation check) and the DOM forest the browser parses it into (used by
stripHtml) are carried side by side, since HTML parsing itself lives in
the browser, outside the embedded code. -/

structure FormData : Type where
  jobTitle : String
  yearsOfExperience : String
  jobType : String
  industry : String
  requiredSkills : String
  jobDescription : String
  resumeFiles : List String
  source : String
deriving DecidableEq, Repr

/-- The local-storage slots the submission and results views touch, each
already parsed to its type.  `orgId` holds the numeric value of the stored
string when the slot is set. -/
structure Store : Type where
  orgId : Option Int
  resumeResults : Option StoredResults
  keySkills : Option (List String)
deriving DecidableEq, Repr

/-- The JSON object serialized into the multipart `data` field
(App.jsx lines 99-105). -/
structure Payload : Type where
  org_id : Int
  exe_name : String
  workflow_id : String
  job_description : String
  source : String
deriving DecidableEq, Repr

/-- Outcome of the one fetch call, as observed by handleSubmit: the network
call throws; the response body fails to parse as JSON; or a JSON response
with its ok flag, status, optional message, and the optional `data` object
whose optional `result` field carries the candidate array. -/
inductive FetchOutcome : Type where
  | netError : FetchOutcome
  | notJson : FetchOutcome
  | jsonResp : Bool → Nat → Option String → Option (Option (List UpstreamItem)) → FetchOutcome
deriving DecidableEq, Repr

/-- The toast shown by one run of handleSubmit. -/
inductive Toast : Type where
  | missingInfo : Toast
  | missingResume : Toast
  | success : Toast
  | submissionError : Toast
deriving DecidableEq, Repr

/-- Whether a toast is shown with `variant: "destructive"`. -/
def Toast.isDestructive : Toast → Bool
  | .missingInfo => true
  | .missingResume => true
  | .submissionError => true
  | .success => false

/-- Observable result of one run of handleSubmit: the toast shown, the
local-storage state afterwards, whether navigation to /resumes happened,
and the payload of the outbound request when one was sent. -/
structure SubmitResult : Type where
  toast : Toast
  store : Store
  navigated : Bool
  request : Option Payload
deriving DecidableEq, Repr

/-- The jobPayload built at App.jsx lines 99-105.  `org_id` is
`Number(localStorage.getItem("orgId") || 1)`; `job_description` is
`stripHtml(formData.jobDescription) || "No description"`; `source` is
`formData.source || ""`, the identity on strings. -/
def buildPayload (fd : FormData) (dom : Node) (st : Store) : Payload :=
  { org_id := st.orgId.getD 1
    exe_name := fd.requiredSkills
    workflow_id := "resume_ranker"
    job_description := if stripHtml dom = "" then "No description" else stripHtml dom
    source := fd.source }

/-- handleSubmit (App.jsx lines 76-151).  `dom` is the DOM forest parsed
from `fd.jobDescription`; `fetch` is the outcome of the one network call,
consulted only when the request is actually sent.  On a JSON response the
error path is taken when `response.ok` is false; on success the slot
"resumeResults" receives the bare array `result.data?.result || []`, the
slot "keySkills" receives `formData.requiredSkills.split(",")`, and the
view navigates to /resumes. -/
def handleSubmit (fd : FormData) (dom : Node) (st : Store)
    (fetch : FetchOutcome) : SubmitResult :=
  if fd.jobTitle = "" ∨ fd.jobType = "" ∨ fd.jobDescription = "" then
    { toast := .missingInfo, store := st, navigated := false, request := none }
  else if fd.resumeFiles.length = 0 then
    { toast := .missingResume, store := st, navigated := false, request := none }
  else
    let payload := buildPayload fd dom st
    match fetch with
    | .netError =>
        { toast := .submissionError, store := st, navigated := false
          request := some payload }
    | .notJson =>
        { toast := .submissionError, store := st, navigated := false
          request := some payload }
    | .jsonResp false _ _ _ =>
        { toast := .submissionError, store := st, navigated := false
          request := some payload }
    | .jsonResp true _ _ dataField =>
        { toast := .success
          store := { st with
            resumeResults := some (.jarr ((dataField.getD none).getD []))
            keySkills := some (splitComma fd.requiredSkills) }
          navigated := true
          request := some payload }

/-! ### URL-parameter job type mapping (App.jsx lines 38-46) -/

/-- The jobTypeMap object literal. -/
def jobTypeMap : List (String × String) :=
  [("Full time", "fulltime"),
   ("Part time", "parttime"),
   ("Contract", "contract"),
   ("Freelance", "freelance"),
   ("Internship", "internship")]

/-- Property names every plain object literal inherits from
Object.prototype; accessing any of these on jobTypeMap misses the own
properties but hits the prototype chain, yielding a truthy non-string
member (a built-in function, or the prototype object itself for
__proto__). -/
def objectPrototypeKeys : List String :=
  ["constructor", "hasOwnProperty", "isPrototypeOf", "propertyIsEnumerable",
   "toLocaleString", "toString", "valueOf",
   "__defineGetter__", "__defineSetter__", "__lookupGetter__", "__lookupSetter__",
   "__proto__"]

/-- The value `jobTypeMap[jobTypeLabel] || ''` can take: a string (one of
the five own values, or the empty-string fallback), or an inherited
Object.prototype member, carried with the name it was accessed by. -/
inductive JobTypeValue : Type where
  | str : String → JobTypeValue
  | protoMember : String → JobTypeValue
deriving DecidableEq, Repr

/-- `jobTypeMap[jobTypeLabel] || ''`: JavaScript property access consults
the own properties first and then the prototype chain; only an undefined
result is falsy and replaced by the empty string, while an inherited
Object.prototype member is truthy and kept. -/
def mappedJobType (label : String) : JobTypeValue :=
  match jobTypeMap.lookup label with
  | some v => .str v
  | none =>
      if label ∈ objectPrototypeKeys then .protoMember label
      else .str ""

/-- The job type derived into form state from the decoded `jobtype` URL
parameter: the decoded value is trimmed, then looked up. -/
def derivedJobType (decoded : String) : JobTypeValue :=
  mappedJobType (jsTrim decoded)

/-! ### Results-view filtering (part_000 lines 63-91) -/

/-- JavaScript `String.prototype.includes`: substring containment on the
character lists. -/
def strIncludes (s sub : String) : Bool :=
  decide (sub.toList <:+: s.toList)

/-- Filter state of the results view: free-text query, score range,
experience range, and the two contact-presence toggles. -/
structure FilterState : Type where
  searchQuery : String
  scoreLo : Int
  scoreHi : Int
  expLo : Int
  expHi : Int
  filterEmail : Bool
  filterPhone : Bool
deriving DecidableEq, Repr

/-- The filter predicate of part_000 lines 66-89 applied to one mapped
candidate.  `Number(resume.Rank) || 0` is the identity on the integer Rank
field (0 stays 0).  The guards `resume.email &&` and
`resume.justification &&` skip the containment test on an empty string. -/
def matchesFilters (fs : FilterState) (r : Candidate) : Bool :=
  let query := jsTrim (jsToLower fs.searchQuery)
  let matchesSearch :=
    strIncludes (jsToLower r.name) query
    || (r.email ≠ "" && strIncludes (jsToLower r.email) query)
    || (r.justification ≠ "" && strIncludes (jsToLower r.justification) query)
  let inScoreRange := fs.scoreLo ≤ r.Rank && r.Rank ≤ fs.scoreHi
  let inExperienceRange := fs.expLo ≤ r.experience && r.experience ≤ fs.expHi
  let hasEmail := if fs.filterEmail then r.email ≠ "" && r.email ≠ "No email" else true
  let hasPhone := if fs.filterPhone then r.phone ≠ "" && r.phone ≠ "No phone" else true
  matchesSearch && inScoreRange && inExperienceRange && hasEmail && hasPhone

/-- `filteredResumes`: the cached list filtered by `matchesFilters`.
No sort is applied. -/
def filteredResumes (fs : FilterState) (resumes : List Candidate) : List Candidate :=
  resumes.filter (matchesFilters fs)

/-! ### Key-skills chips (part_000 lines 29-33 and 116-127) -/

/-- Reading the "keySkills" slot back: the parsed array when the slot is
set (an array round-trips through JSON unchanged), the initial empty list
otherwise. -/
def loadKeySkills (v : Option (List String)) : List String :=
  v.getD []

/-- The key-skills panel: one chip per skill when the list is non-empty,
otherwise the placeholder (modelled as `none`). -/
def keySkillsView (skills : List String) : Option (List String) :=
  if skills.length > 0 then some skills else none

/-! ### Concrete inputs used by witnesses -/

/-- An empty store: no slot set. -/
def emptyStore : Store := ⟨none, none, none⟩

/-- A form with every required field filled and one uploaded file. -/
def validForm : FormData :=
  ⟨"Engineer", "3", "fulltime", "Tech", "", "hiring", ["resume.pdf"], ""⟩

/-- A form with every field empty. -/
def emptyForm : FormData := ⟨"", "", "", "", "", "", [], ""⟩

/-- An upstream item with every field missing. -/
def bareItem : UpstreamItem := ⟨none, none, none, .missing, none, none⟩

/-- A fully populated upstream item. -/
def aliceItem : UpstreamItem :=
  ⟨some "Alice", some 7, some "Strong match", .num 3, some "alice@example.com", some "555"⟩

/-! ### Helper lemmas -/

/-- The property access of mappedJobType, written out as a decision chain
over the five own keys followed by the prototype-chain hit. -/
theorem mappedJobType_eq (label : String) :
    mappedJobType label =
      if label = "Full time" then .str "fulltime"
      else if label = "Part time" then .str "parttime"
      else if label = "Contract" then .str "contract"
      else if label = "Freelance" then .str "freelance"
      else if label = "Internship" then .str "internship"
      else if label ∈ objectPrototypeKeys then .protoMember label
      else .str "" := by
  unfold mappedJobType jobTypeMap
  simp only [List.lookup_cons, List.lookup_nil]
  split_ifs with h1 h2 h3 h4 h5 h6 <;>
    simp_all [beq_eq_decide]

/-- The truthiness guards on the email and justification branches of the
search disjunction do not change its value: a query contained in the empty
string is itself empty and then contained in the name as well. -/
theorem searchDisj_iff (q : List Char) (nm e j : String) :
    (q <:+: (jsToLower nm).toList
      ∨ (e ≠ "" ∧ q <:+: (jsToLower e).toList)
      ∨ (j ≠ "" ∧ q <:+: (jsToLower j).toList))
    ↔ (q <:+: (jsToLower nm).toList
      ∨ q <:+: (jsToLower e).toList
      ∨ q <:+: (jsToLower j).toList) := by
  constructor
  · rintro (hA | ⟨-, hB⟩ | ⟨-, hC⟩)
    · exact Or.inl hA
    · exact Or.inr (Or.inl hB)
    · exact Or.inr (Or.inr hC)
  · rintro (hA | hB | hC)
    · exact Or.inl hA
    · by_cases he : e = ""
      · subst he
        have hq : q = [] := List.infix_nil.mp (by simpa [jsToLower] using hB)
        exact Or.inl (by rw [hq]; exact List.nil_infix)
      · exact Or.inr (Or.inl ⟨he, hB⟩)
    · by_cases hj : j = ""
      · subst hj
        have hq : q = [] := List.infix_nil.mp (by simpa [jsToLower] using hC)
        exact Or.inl (by rw [hq]; exact List.nil_infix)
      · exact Or.inr (Or.inr ⟨hj, hC⟩)

/-! ### Claims -/

/-- C9: for every cached resume list and every filter state, the filtered
view is an order-preserving subsequence of the cached list: filtering
removes elements but never reorders them. -/
theorem filteredResumes_sublist (fs : FilterState) (l : List Candidate) :
    filteredResumes fs l <+ l :=
  List.filter_sublist l

/-- C5: each absent field of an upstream item is defaulted by the
results-view mapping: a missing name becomes "Candidate N" with N the
1-based position, a missing score becomes 0, a missing justification
becomes the empty string, a non-numeric or missing experience becomes 0,
a missing email becomes "No email", and a missing phone becomes
"No phone". -/
theorem mapResumeItem_defaults (oid : Option Int) (ex : Option String)
    (i : Nat) (item : UpstreamItem) :
    (item.name = none → (mapResumeItem oid ex i item).name = "Candidate " ++ toString (i + 1))
    ∧ (item.score = none → (mapResumeItem oid ex i item).Rank = 0)
    ∧ (item.justification = none → (mapResumeItem oid ex i item).justification = "")
    ∧ (∀ s, item.experience = ExpVal.str s → (mapResumeItem oid ex i item).experience = 0)
    ∧ (item.experience = ExpVal.missing → (mapResumeItem oid ex i item).experience = 0)
    ∧ (item.email = none → (mapResumeItem oid ex i item).email = "No email")
    ∧ (item.phone = none → (mapResumeItem oid ex i item).phone = "No phone") := by
  refine ⟨?_, ?_, ?_, ?_, ?_, ?_, ?_⟩ <;>
    first
      | (intro h; simp [mapResumeItem, h, jsOrStr, jsOrNum])
      | (intro s h; simp [mapResumeItem, h])

/-- Witness for C5 at the all-missing item in first position. -/
theorem mapResumeItem_defaults_witness :
    (mapResumeItem none none 0 bareItem).name = "Candidate 1"
    ∧ (mapResumeItem none none 0 bareItem).Rank = 0
    ∧ (mapResumeItem none none 0 bareItem).justification = ""
    ∧ (mapResumeItem none none 0 bareItem).experience = 0
    ∧ (mapResumeItem none none 0 bareItem).email = "No email"
    ∧ (mapResumeItem none none 0 bareItem).phone = "No phone" := by
  have h := mapResumeItem_defaults none none 0 bareItem
  exact ⟨h.1 rfl, h.2.1 rfl, h.2.2.1 rfl, h.2.2.2.2.1 rfl, h.2.2.2.2.2.1 rfl,
    h.2.2.2.2.2.2 rfl⟩

/-- C7 counterexample: the decoded value "toString" is trimmed to an
inherited Object.prototype property name, so the access is truthy and kept
by the fallback; the derived job type is neither one of the five enum
values nor the empty string. -/
theorem derivedJobType_counterexample :
    derivedJobType "toString" = .protoMember "toString"
    ∧ ¬(derivedJobType "toString" = .str "fulltime"
      ∨ derivedJobType "toString" = .str "parttime"
      ∨ derivedJobType "toString" = .str "contract"
      ∨ derivedJobType "toString" = .str "freelance"
      ∨ derivedJobType "toString" = .str "internship"
      ∨ derivedJobType "toString" = .str "") := by
  refine ⟨by decide, by decide⟩

/-- C7 (amended): after safe decoding and trimming, the five exact labels
map to their respective enum values; every other value maps to the empty
string, except a value naming an inherited Object.prototype property
(toString, valueOf, constructor, hasOwnProperty, and the rest), for which
the lookup keeps the truthy inherited member, so the derived job type is
that member rather than an enum value or the empty string. -/
theorem derivedJobType_enum (decoded : String) :
    (derivedJobType decoded = .str "fulltime" ∨ derivedJobType decoded = .str "parttime"
      ∨ derivedJobType decoded = .str "contract" ∨ derivedJobType decoded = .str "freelance"
      ∨ derivedJobType decoded = .str "internship" ∨ derivedJobType decoded = .str ""
      ∨ derivedJobType decoded = .protoMember (jsTrim decoded))
    ∧ (jsTrim decoded = "Full time" → derivedJobType decoded = .str "fulltime")
    ∧ (jsTrim decoded = "Part time" → derivedJobType decoded = .str "parttime")
    ∧ (jsTrim decoded = "Contract" → derivedJobType decoded = .str "contract")
    ∧ (jsTrim decoded = "Freelance" → derivedJobType decoded = .str "freelance")
    ∧ (jsTrim decoded = "Internship" → derivedJobType decoded = .str "internship")
    ∧ (jsTrim decoded ∉ ["Full time", "Part time", "Contract", "Freelance", "Internship"] →
        jsTrim decoded ∈ objectPrototypeKeys →
        derivedJobType decoded = .protoMember (jsTrim decoded))
    ∧ (jsTrim decoded ∉ ["Full time", "Part time", "Contract", "Freelance", "Internship"] →
        jsTrim decoded ∉ objectPrototypeKeys →
        derivedJobType decoded = .str "") := by
  unfold derivedJobType
  rw [mappedJobType_eq]
  refine ⟨?_, ?_, ?_, ?_, ?_, ?_, ?_, ?_⟩ <;>
    (try intro h) <;> (try intro h2) <;> split_ifs <;> simp_all

/-- Witness for amended C7 at a recognized label with surrounding spaces,
an unrecognized plain label, and an inherited property name. -/
theorem derivedJobType_enum_witness :
    derivedJobType " Full time " = .str "fulltime"
    ∧ derivedJobType "full time" = .str ""
    ∧ derivedJobType "toString " = .protoMember "toString" := by
  refine ⟨(derivedJobType_enum " Full time ").2.1 (by decide),
    (derivedJobType_enum "full time").2.2.2.2.2.2.2 (by decide) (by decide), ?_⟩
  have h := (derivedJobType_enum "toString ").2.2.2.2.2.2.1 (by decide) (by decide)
  rw [h]
  decide

/-- C8: an upstream email or phone equal to the literal "xxx" is scrubbed
to the same placeholder as an absent field, and such a candidate is
excluded from the filtered view whenever the corresponding
contact-presence toggle is on. -/
theorem contact_xxx_scrubbed (oid : Option Int) (ex : Option String)
    (i : Nat) (item : UpstreamItem) (fs : FilterState) :
    (item.email = some "xxx" →
      (mapResumeItem oid ex i item).email = "No email"
      ∧ (mapResumeItem oid ex i item).email
          = (mapResumeItem oid ex i { item with email := none }).email
      ∧ (fs.filterEmail = true →
          matchesFilters fs (mapResumeItem oid ex i item) = false))
    ∧ (item.phone = some "xxx" →
      (mapResumeItem oid ex i item).phone = "No phone"
      ∧ (mapResumeItem oid ex i item).phone
          = (mapResumeItem oid ex i { item with phone := none }).phone
      ∧ (fs.filterPhone = true →
          matchesFilters fs (mapResumeItem oid ex i item) = false)) := by
  constructor
  · intro h
    refine ⟨by simp [mapResumeItem, h], by simp [mapResumeItem, h], ?_⟩
    intro hf
    simp [matchesFilters, mapResumeItem, h, hf]
  · intro h
    refine ⟨by simp [mapResumeItem, h], by simp [mapResumeItem, h], ?_⟩
    intro hf
    simp [matchesFilters, mapResumeItem, h, hf]

/-- Witness for C8 at an item whose email and phone are both "xxx", with
both toggles on. -/
theorem contact_xxx_scrubbed_witness :
    (mapResumeItem none none 0 ⟨some "A", some 5, none, .num 2, some "xxx", some "xxx"⟩).email
      = "No email"
    ∧ matchesFilters ⟨"", 1, 10, 0, 35, true, true⟩
        (mapResumeItem none none 0 ⟨some "A", some 5, none, .num 2, some "xxx", some "xxx"⟩)
      = false := by
  have h := contact_xxx_scrubbed none none 0
    ⟨some "A", some 5, none, .num 2, some "xxx", some "xxx"⟩
    ⟨"", 1, 10, 0, 35, true, true⟩
  exact ⟨(h.1 rfl).1, (h.1 rfl).2.2 rfl⟩

/-- C2: a candidate of the cached list appears in the filtered view if and
only if its lowered name, email, or justification contains the lower-cased
trimmed query, its score lies within the score range inclusive, its
experience lies within the experience range inclusive, and, when the email
(resp. phone) toggle is on, its email (resp. phone) field is present, that
is, non-empty and not the placeholder. -/
theorem filteredResumes_mem_iff (fs : FilterState) (l : List Candidate)
    (r : Candidate) (h : r ∈ l) :
    r ∈ filteredResumes fs l ↔
      ((jsTrim (jsToLower fs.searchQuery)).toList <:+: (jsToLower r.name).toList
        ∨ (jsTrim (jsToLower fs.searchQuery)).toList <:+: (jsToLower r.email).toList
        ∨ (jsTrim (jsToLower fs.searchQuery)).toList <:+: (jsToLower r.justification).toList)
      ∧ (fs.scoreLo ≤ r.Rank ∧ r.Rank ≤ fs.scoreHi)
      ∧ (fs.expLo ≤ r.experience ∧ r.experience ≤ fs.expHi)
      ∧ (fs.filterEmail = true → r.email ≠ "" ∧ r.email ≠ "No email")
      ∧ (fs.filterPhone = true → r.phone ≠ "" ∧ r.phone ≠ "No phone") := by
  rw [filteredResumes, List.mem_filter]
  simp only [h, true_and]
  rw [← searchDisj_iff (jsTrim (jsToLower fs.searchQuery)).toList r.name r.email r.justification]
  unfold matchesFilters strIncludes
  cases hfe : fs.filterEmail <;> cases hfp : fs.filterPhone <;>
    simp [Bool.and_eq_true, Bool.or_eq_true, decide_eq_true_eq, and_assoc] <;>
    intros <;> tauto

/-- Witness for C2: a matching candidate of a one-element cached list is in
the filtered view. -/
theorem filteredResumes_mem_iff_witness :
    mapResumeItem none none 0 aliceItem
      ∈ filteredResumes ⟨"alice", 1, 10, 0, 35, true, true⟩
          [mapResumeItem none none 0 aliceItem] := by
  refine (filteredResumes_mem_iff ⟨"alice", 1, 10, 0, 35, true, true⟩
    [mapResumeItem none none 0 aliceItem] (mapResumeItem none none 0 aliceItem)
    (by simp)).mpr (by decide)

/-- C3: submitting with an empty job title, job type, or job description,
or with no uploaded resume file, shows a destructive toast and returns
without sending a request, without touching local storage, and without
navigating; the request is sent exactly when all required fields are
non-empty and at least one file is uploaded. -/
theorem handleSubmit_validation (fd : FormData) (dom : Node) (st : Store)
    (f : FetchOutcome) :
    ((handleSubmit fd dom st f).request.isSome = true ↔
      (fd.jobTitle ≠ "" ∧ fd.jobType ≠ "" ∧ fd.jobDescription ≠ "" ∧ fd.resumeFiles ≠ []))
    ∧ ((fd.jobTitle = "" ∨ fd.jobType = "" ∨ fd.jobDescription = "" ∨ fd.resumeFiles = []) →
      (handleSubmit fd dom st f).toast.isDestructive = true
      ∧ (handleSubmit fd dom st f).request = none
      ∧ (handleSubmit fd dom st f).store = st
      ∧ (handleSubmit fd dom st f).navigated = false) := by
  by_cases h1 : fd.jobTitle = "" ∨ fd.jobType = "" ∨ fd.jobDescription = ""
  · constructor
    · simp only [handleSubmit, if_pos h1]
      simp only [Option.isSome_none, Bool.false_eq_true, false_iff]
      rcases h1 with h | h | h <;> simp [h]
    · intro _
      simp [handleSubmit, if_pos h1, Toast.isDestructive]
  · by_cases h2 : fd.resumeFiles.length = 0
    · have h2' : fd.resumeFiles = [] := List.length_eq_zero.mp h2
      constructor
      · simp [handleSubmit, if_neg h1, h2']
      · intro _
        simp [handleSubmit, if_neg h1, h2', Toast.isDestructive]
    · have h1' := h1
      push_neg at h1'
      have h2' : fd.resumeFiles ≠ [] := fun he => h2 (by simp [he])
      constructor
      · cases f
        next => simp [handleSubmit, if_neg h1, h2', h1']
        next => simp [handleSubmit, if_neg h1, h2', h1']
        next ok status msg d =>
          cases ok <;> simp [handleSubmit, if_neg h1, h2', h1']
      · intro hbad
        rcases hbad with h | h | h | h
        · exact absurd h h1'.1
        · exact absurd h h1'.2.1
        · exact absurd h h1'.2.2
        · exact absurd h h2'

/-- Witness for C3 at the all-empty form. -/
theorem handleSubmit_validation_witness :
    (handleSubmit emptyForm Node.nil emptyStore .netError).toast.isDestructive = true
    ∧ (handleSubmit emptyForm Node.nil emptyStore .netError).request = none
    ∧ (handleSubmit emptyForm Node.nil emptyStore .netError).store = emptyStore
    ∧ (handleSubmit emptyForm Node.nil emptyStore .netError).navigated = false :=
  (handleSubmit_validation emptyForm Node.nil emptyStore .netError).2 (Or.inl rfl)

/-- C4: when the fetch call throws, the body is not JSON, or the response
status is not ok, the run shows the error toast and is atomic: the
resumeResults and keySkills slots are unchanged and no navigation
happens. -/
theorem handleSubmit_error_atomic (fd : FormData) (dom : Node) (st : Store)
    (f : FetchOutcome)
    (hvalid : fd.jobTitle ≠ "" ∧ fd.jobType ≠ "" ∧ fd.jobDescription ≠ "" ∧ fd.resumeFiles ≠ [])
    (herr : f = .netError ∨ f = .notJson
      ∨ ∃ status msg d, f = .jsonResp false status msg d) :
    (handleSubmit fd dom st f).toast = .submissionError
    ∧ (handleSubmit fd dom st f).store.resumeResults = st.resumeResults
    ∧ (handleSubmit fd dom st f).store.keySkills = st.keySkills
    ∧ (handleSubmit fd dom st f).navigated = false := by
  obtain ⟨ht, hty, hd, hf⟩ := hvalid
  have h1 : ¬(fd.jobTitle = "" ∨ fd.jobType = "" ∨ fd.jobDescription = "") := by
    push_neg
    exact ⟨ht, hty, hd⟩
  have h2 : ¬(fd.resumeFiles.length = 0) := fun he => hf (List.length_eq_zero.mp he)
  rcases herr with h | h | ⟨status, msg, d, h⟩ <;> subst h <;>
    simp [handleSubmit, if_neg h1, hf]

/-- Witness for C4 at a valid form whose fetch call throws. -/
theorem handleSubmit_error_atomic_witness :
    (handleSubmit validForm Node.nil emptyStore .netError).toast = .submissionError
    ∧ (handleSubmit validForm Node.nil emptyStore .netError).store.resumeResults
        = emptyStore.resumeResults
    ∧ (handleSubmit validForm Node.nil emptyStore .netError).store.keySkills
        = emptyStore.keySkills
    ∧ (handleSubmit validForm Node.nil emptyStore .netError).navigated = false :=
  handleSubmit_error_atomic validForm Node.nil emptyStore .netError
    (by refine ⟨?_, ?_, ?_, ?_⟩ <;> decide) (Or.inl rfl)

/-- C10: a successful submission stores exactly the comma-split of the
requiredSkills string, with no trimming and no removal of empty entries;
the results view reads that list back unchanged; and an empty
requiredSkills string yields the one-element list holding the empty
string, rendered as a single key-skill chip. -/
theorem keySkills_roundtrip (fd : FormData) (dom : Node) (st : Store)
    (status : Nat) (msg : Option String) (d : Option (Option (List UpstreamItem)))
    (hvalid : fd.jobTitle ≠ "" ∧ fd.jobType ≠ "" ∧ fd.jobDescription ≠ "" ∧ fd.resumeFiles ≠ []) :
    (handleSubmit fd dom st (.jsonResp true status msg d)).store.keySkills
      = some (splitComma fd.requiredSkills)
    ∧ loadKeySkills (some (splitComma fd.requiredSkills)) = splitComma fd.requiredSkills
    ∧ (fd.requiredSkills = "" →
        splitComma fd.requiredSkills = [""]
        ∧ keySkillsView (splitComma fd.requiredSkills) = some [""]) := by
  obtain ⟨ht, hty, hd, hf⟩ := hvalid
  have h1 : ¬(fd.jobTitle = "" ∨ fd.jobType = "" ∨ fd.jobDescription = "") := by
    push_neg
    exact ⟨ht, hty, hd⟩
  refine ⟨by simp [handleSubmit, if_neg h1, hf], rfl, ?_⟩
  intro he
  rw [he]
  exact ⟨rfl, rfl⟩

/-- Witness for C10 at a valid form whose requiredSkills string is empty. -/
theorem keySkills_roundtrip_witness :
    (handleSubmit validForm Node.nil emptyStore (.jsonResp true 200 none none)).store.keySkills
      = some [""]
    ∧ keySkillsView (splitComma "") = some [""] := by
  have h := keySkills_roundtrip validForm Node.nil emptyStore 200 none none
    (by refine ⟨?_, ?_, ?_, ?_⟩ <;> decide)
  exact ⟨h.1, (h.2.2 rfl).2⟩

/-- C1 (code bug): a successful submission caches the bare candidate array
under resumeResults, but the results view only maps a stored value whose
`result` property is an array; a bare array has no such property, so the
mapping never runs and the in-memory resume list is left empty instead of
the element-wise mapping the claim describes. -/
theorem resumeResults_write_read_mismatch :
    (handleSubmit validForm Node.nil emptyStore
        (.jsonResp true 200 none (some (some [aliceItem])))).store.resumeResults
      = some (.jarr [aliceItem])
    ∧ loadResumes (some (.jarr [aliceItem])) = []
    ∧ mapWithIndex (mapResumeItem none none) 0 [aliceItem] ≠ [] := by
  refine ⟨by decide, rfl, by decide⟩

/-- C6 counterexample: for the form whose job description is the raw HTML
string of one empty paragraph, the stripped text is empty and the payload
carries the literal "No description" instead, so the sent field is not the
HTML-stripped form of the entered description. -/
theorem jobDescription_sent_counterexample :
    (handleSubmit ⟨"Engineer", "3", "fulltime", "Tech", "", "<p></p>", ["resume.pdf"], ""⟩
          (.elem "p" .nil .nil) emptyStore .netError).request.map Payload.job_description
      = some "No description"
    ∧ stripHtml (.elem "p" .nil .nil) = ""
    ∧ (handleSubmit ⟨"Engineer", "3", "fulltime", "Tech", "", "<p></p>", ["resume.pdf"], ""⟩
          (.elem "p" .nil .nil) emptyStore .netError).request.map Payload.job_description
      ≠ some (stripHtml (.elem "p" .nil .nil)) := by
  refine ⟨by decide, by decide, by decide⟩

/-- C6 (amended): for every submission that passes validation, the
job_description field of the outbound payload equals the HTML-stripped
form of the entered job description — tags removed, a space appended
inside each p, div, br, and li element, and the result trimmed — whenever
that stripped text is non-empty; when the stripped text is empty, the
literal "No description" is sent instead. -/
theorem jobDescription_sent (fd : FormData) (dom : Node) (st : Store)
    (f : FetchOutcome)
    (hvalid : fd.jobTitle ≠ "" ∧ fd.jobType ≠ "" ∧ fd.jobDescription ≠ "" ∧ fd.resumeFiles ≠ []) :
    (handleSubmit fd dom st f).request.map Payload.job_description
      = some (if stripHtml dom = "" then "No description" else stripHtml dom) := by
  obtain ⟨ht, hty, hd, hf⟩ := hvalid
  have h1 : ¬(fd.jobTitle = "" ∨ fd.jobType = "" ∨ fd.jobDescription = "") := by
    push_neg
    exact ⟨ht, hty, hd⟩
  cases f
  next => simp [handleSubmit, if_neg h1, hf, buildPayload]
  next => simp [handleSubmit, if_neg h1, hf, buildPayload]
  next ok status msg d =>
    cases ok <;> simp [handleSubmit, if_neg h1, hf, buildPayload]

/-- Witness for amended C6: a description with one text node takes the
non-empty branch, and one holding a single empty paragraph takes the
"No description" branch. -/
theorem jobDescription_sent_witness :
    (handleSubmit validForm (.text "hiring now" .nil) emptyStore .netError).request.map
        Payload.job_description
      = some "hiring now"
    ∧ (handleSubmit validForm (.elem "p" .nil .nil) emptyStore .netError).request.map
        Payload.job_description
      = some "No description" := by
  constructor
  · have h := jobDescription_sent validForm (.text "hiring now" .nil) emptyStore .netError
      (by refine ⟨?_, ?_, ?_, ?_⟩ <;> decide)
    rw [h]
    decide
  · have h := jobDescription_sent validForm (.elem "p" .nil .nil) emptyStore .netError
      (by refine ⟨?_, ?_, ?_, ?_⟩ <;> decide)
    rw [h]
    decide

end TalentSift
